import Mathlib

/-!
Verification development for the ai-transcribe-app repository.

The repository contains several front-end variants of a live
transcribe-and-translate pipeline (a vanilla-JS `PresentationNotesApp` in two
variants, and a React `Home.tsx`), a tRPC server (`routers.ts`) and a MySQL
schema.  The definitions below are shallow embeddings of the functions the
claims talk about; each definition names the source location it was
translated from.
-/

namespace AITranscribe

/-! ## Generic string helpers (embedding of JavaScript string operations)

JavaScript strings are modelled as Lean `String` (a list of characters);
`str.substring(start)` drops the first `start` units, `str.trim()` is
`String.trim`, `str.length` is `String.length`.
-/

/-- Embedding of JavaScript `s.substring(start)`: the suffix of `s` obtained
by dropping the first `start` characters. -/
def jsSubstringFrom (s : String) (start : Nat) : String :=
  ⟨s.data.drop start⟩

/-- Boolean test: `needle` is a leading sequence of `hay` (on character lists). -/
def isPrefixB : List Char → List Char → Bool
  | [], _ => true
  | _ :: _, [] => false
  | a :: asl, b :: bs => a == b && isPrefixB asl bs

/-- Boolean test: `needle` occurs contiguously somewhere inside `hay`. -/
def isInfixB (needle : List Char) : List Char → Bool
  | [] => isPrefixB needle []
  | l@(_ :: tl) => isPrefixB needle l || isInfixB needle tl

/-- `strContains hay needle = true` iff `needle` occurs as a contiguous
substring of `hay`.  Used to state what the served LLM prompts contain. -/
def strContains (hay needle : String) : Bool :=
  isInfixB needle.data hay.data

/-! ## Suffix detection (TranscriptAccumulator diff)

Source: `part_000`, second `PresentationNotesApp` variant,
`handleNewTranscriptionText` (lines 743-753):

    if (currentText.length > this.lastTranscriptionText.length) {
        const newText = currentText.substring(this.lastTranscriptionText.length).trim();
        ...
    }
-/

/-- Embedding of JavaScript `s.trim()`: remove leading and trailing
whitespace characters. -/
def jsTrim (s : String) : String :=
  ⟨((s.data.dropWhile Char.isWhitespace).reverse.dropWhile Char.isWhitespace).reverse⟩

/-- The new-text value computed at `part_000` line 746:
`currentText.substring(lastTranscriptionText.length).trim()`. -/
def computeNewText (last cur : String) : String :=
  jsTrim (jsSubstringFrom cur last.length)

/-- The diff produced for a cached transcript `last` and a newly returned
transcript `cur`: the trimmed length-based suffix when `cur` is strictly
longer, and the empty string otherwise (the code computes no diff and
translates nothing in that branch). -/
def diffSinceLast (last cur : String) : String :=
  if last.length < cur.length then computeNewText last cur else ("")

/-! ## ContextWindow (last translation segments)

Source: `part_000`, second variant, `appendTranslation` (lines 802-806):

    this.lastTranslationSegments.push(translation);
    if (this.lastTranslationSegments.length > 3) {
        this.lastTranslationSegments.shift();
    }
-/

/-- Push a new translation into the bounded context window: append at the
end, and if the window now holds more than 3 entries drop the oldest
(front) entry. -/
def appendTranslationSegments (segs : List String) (t : String) : List String :=
  let pushed := segs ++ [t]
  if pushed.length > 3 then pushed.drop 1 else pushed

/-- Append a translation to the running translation history string
(`appendTranslation`, lines 792-796): separated by one space when the
history is non-empty. -/
def appendTranslationHistory (history t : String) : String :=
  if history = "" then t else history ++ " " ++ t

/-! ## The live transcription/translation pipeline as an event machine

Source: `part_000`, second `PresentationNotesApp` variant.  The app is
single-threaded and event driven; the relevant handlers are

  * `updateTranscription(text)` (lines 735-741): sets the displayed
    transcript to `text` unconditionally and calls
    `handleNewTranscriptionText(text)` without awaiting it;
  * `handleNewTranscriptionText(currentText)` (lines 743-753): when
    `currentText` is strictly longer than `lastTranscriptionText` it computes
    `newText = currentText.substring(lastTranscriptionText.length).trim()`
    and, when non-empty, awaits `translateNewText(newText)`; in every case it
    then assigns `lastTranscriptionText = currentText` (after the await in
    the translating branch, immediately otherwise);
  * `translateNewText(newText)` (lines 755-782): issues a fetch carrying
    `text`, `target_language` and `previous_translations`
    (= `lastTranslationSegments`); on an ok response it calls
    `appendTranslation(result.translation)`, otherwise it only logs.

The machine below makes each suspension point explicit.  An environment
event either delivers a transcription-service response (running the handler
up to its first await) or settles one in-flight translation fetch (running
the continuation after the await).  `obsLog` records request issues and
settlements so that serialization claims can be stated over it.
-/

/-- One in-flight translation fetch together with the continuation data the
suspended `handleNewTranscriptionText` call closed over. -/
structure PendingTranslation where
  id : Nat
  requestText : String
  contextSnapshot : List String
  savedCurrent : String
deriving Repr, DecidableEq

/-- Environment events: a transcription response with the complete text so
far, or the settlement (ok / failed) of the in-flight translation fetch
with identifier `id`. -/
inductive TrEv where
  | transcription (text : String)
  | translationOk (id : Nat) (result : String)
  | translationFail (id : Nat)
deriving Repr, DecidableEq

/-- Observable request events, in the order they happen. -/
inductive TrObs where
  | issue (id : Nat)
  | settle (id : Nat)
deriving Repr, DecidableEq

/-- The mutable fields of the second `PresentationNotesApp` variant that the
pipeline handlers read and write, plus bookkeeping logs (`issuedTexts`,
`appended`, `obsLog`) that only record what happened. -/
structure AppState where
  transcriptionDisplay : String
  lastTranscriptionText : String
  translationHistory : String
  lastTranslationSegments : List String
  pending : List PendingTranslation
  nextId : Nat
  issuedTexts : List String
  appended : List String
  obsLog : List TrObs
deriving Repr, DecidableEq

/-- Constructor state (lines 462-470): empty transcript cache, empty
history, empty context window. -/
def initState : AppState := ⟨"", "", "", [], [], 0, [], [], []⟩

/-- `updateTranscription(text)` followed by the prefix of
`handleNewTranscriptionText(text)` up to its first await: display the text,
and either issue a translation request for the non-empty trimmed suffix
(leaving `lastTranscriptionText` to be updated by the continuation) or
assign `lastTranscriptionText = text` immediately. -/
def stepTranscription (s : AppState) (text : String) : AppState :=
  let s1 := { s with transcriptionDisplay := text }
  if s1.lastTranscriptionText.length < text.length then
    let newText := computeNewText s1.lastTranscriptionText text
    if newText = "" then { s1 with lastTranscriptionText := text }
    else
      { s1 with
        pending := s1.pending ++
          [⟨s1.nextId, newText, s1.lastTranslationSegments, text⟩],
        nextId := s1.nextId + 1,
        issuedTexts := s1.issuedTexts ++ [newText],
        obsLog := s1.obsLog ++ [TrObs.issue s1.nextId] }
  else { s1 with lastTranscriptionText := text }

/-- Settle the in-flight translation fetch `id`.  On success (`some t`) the
continuation runs `appendTranslation(t)` (history, context window) and then
assigns `lastTranscriptionText = currentText`; on failure (`none`,
`response.ok` false or a thrown error) the code only logs and the same
assignment runs.  In either case the fetch is consumed and never reissued. -/
def resolveTranslation (s : AppState) (id : Nat) (result : Option String) : AppState :=
  match s.pending.find? (fun p => p.id == id) with
  | none => s
  | some p =>
    let s1 := { s with
      pending := s.pending.filter (fun q => q.id != id),
      obsLog := s.obsLog ++ [TrObs.settle id] }
    match result with
    | some t =>
      { s1 with
        translationHistory := appendTranslationHistory s1.translationHistory t,
        lastTranslationSegments := appendTranslationSegments s1.lastTranslationSegments t,
        appended := s1.appended ++ [t],
        lastTranscriptionText := p.savedCurrent }
    | none => { s1 with lastTranscriptionText := p.savedCurrent }

/-- One machine step. -/
def trStep (s : AppState) : TrEv → AppState
  | TrEv.transcription text => stepTranscription s text
  | TrEv.translationOk id result => resolveTranslation s id (some result)
  | TrEv.translationFail id => resolveTranslation s id none

/-- Run a sequence of environment events. -/
def trRun (s : AppState) (evs : List TrEv) : AppState :=
  evs.foldl trStep s

/-- The serialization property claimed by the spec for translation calls,
read directly off the observable log: a new request may only be issued when
no earlier request is still in flight. -/
def serializedAux : Nat → List TrObs → Bool
  | _, [] => true
  | inflight, TrObs.issue _ :: rest => inflight == 0 && serializedAux (inflight + 1) rest
  | inflight, TrObs.settle _ :: rest => serializedAux (inflight - 1) rest

/-- A log is serialized when every issue happens with zero requests in
flight. -/
def serializedB (l : List TrObs) : Bool := serializedAux 0 l

/-! ## SpeechQueue (TTS)

Source: `part_000`, second variant, lines 1140-1184.

  * `speakText(text, languageCode)` (1149-1163): returns early when TTS is
    disabled or the text trims to empty; otherwise pushes
    `{ text, languageCode }` onto `ttsQueue` and, when `isProcessingTTS` is
    false, invokes `processTTSQueue()`.
  * `processTTSQueue()` (1165-1184): when the queue is empty it resets
    `isProcessingTTS` and returns; otherwise it sets `isProcessingTTS`,
    shifts the head task, awaits `speakTextImmediate` (one utterance, spoken
    to completion or until interrupted) and re-invokes itself after a
    100 ms `setTimeout` pause.
  * `stopCurrentSpeech()` (1140-1147): cancels any in-progress utterance,
    empties `ttsQueue`, resets `isProcessingTTS` and `currentUtterance`.

In the machine, `TTSEv.enqueue` is a `speakText` call with TTS enabled;
`TTSEv.utteranceDone` is the completion of the current utterance together
with the 100 ms pause and the next `processTTSQueue` invocation;
`TTSEv.stopAll` is `stopCurrentSpeech`.  `spoken` logs each utterance the
queue hands to the speech device, in order.
-/

/-- A queued speech task: text plus target-language code. -/
structure SpeechTask where
  text : String
  languageCode : String
deriving Repr, DecidableEq

/-- The TTS-related fields of the app. -/
structure TTSState where
  ttsQueue : List SpeechTask
  isProcessingTTS : Bool
  currentUtterance : Option SpeechTask
  spoken : List SpeechTask
deriving Repr, DecidableEq

/-- Constructor state: empty queue, idle. -/
def ttsInit : TTSState := ⟨[], false, none, []⟩

/-- The inter-task pause passed to `setTimeout` at `part_000` line 1183. -/
def interTaskPauseMs : Nat := 100

/-- TTS events. -/
inductive TTSEv where
  | enqueue (t : SpeechTask)
  | utteranceDone
  | stopAll
deriving Repr, DecidableEq

/-- One `processTTSQueue()` entry: go idle on an empty queue, otherwise
shift the head task and hand it to the speech device (it becomes the
current utterance and is logged as spoken). -/
def processTTSQueueStep (s : TTSState) : TTSState :=
  match s.ttsQueue with
  | [] => { s with isProcessingTTS := false }
  | t :: rest =>
    { s with
      ttsQueue := rest,
      isProcessingTTS := true,
      currentUtterance := some t,
      spoken := s.spoken ++ [t] }

/-- One TTS machine step. -/
def ttsStep (s : TTSState) : TTSEv → TTSState
  | TTSEv.enqueue t =>
    if jsTrim t.text = "" then s
    else
      let s1 := { s with ttsQueue := s.ttsQueue ++ [t] }
      if s1.isProcessingTTS then s1 else processTTSQueueStep s1
  | TTSEv.utteranceDone =>
    match s.currentUtterance with
    | none => s
    | some _ => processTTSQueueStep { s with currentUtterance := none }
  | TTSEv.stopAll =>
    { s with ttsQueue := [], isProcessingTTS := false, currentUtterance := none }

/-- Run a sequence of TTS events. -/
def ttsRun (s : TTSState) (evs : List TTSEv) : TTSState :=
  evs.foldl ttsStep s

/-! ## Chunk rotation (ChunkRecorder)

Source: `part_000`, second variant, `startRecording` (lines 621-627):

    this.chunkInterval = setInterval(() => {
        if (this.isRecording && this.mediaRecorder.state === 'recording') {
            this.mediaRecorder.stop();
            this.mediaRecorder.start();
        }
    }, 10000);

The capture device is modelled by the interval of time it has been
recording since the last (re)start: `mediaRecorder.stop()` closes and emits
the segment covering `[segStart, now)`, and the immediately following
`mediaRecorder.start()` begins a new segment at the same instant `now`
(both run synchronously inside one timer callback, with no event in
between).
-/

/-- The rotation interval passed to `setInterval` at `part_000` line 627. -/
def chunkIntervalMs : Nat := 10000

/-- Recorder state: the app `isRecording` flag, whether the
`MediaRecorder` is in its `recording` state, the start time of the
in-flight segment, the current time, and the closed segments emitted so
far (as `[start, stop)` intervals in ms). -/
structure RecorderState where
  isRecording : Bool
  recorderActive : Bool
  segStart : Nat
  now : Nat
  emitted : List (Nat × Nat)
deriving Repr, DecidableEq

/-- One firing of the rotation timer, `chunkIntervalMs` after the previous
one: inside the callback, `stop()` closes the in-flight segment and
`start()` immediately begins the next one at the same instant. -/
def chunkIntervalTick (s : RecorderState) : RecorderState :=
  let s1 := { s with now := s.now + chunkIntervalMs }
  if s1.isRecording && s1.recorderActive then
    { s1 with emitted := s1.emitted ++ [(s1.segStart, s1.now)], segStart := s1.now }
  else s1

/-- State right after `mediaRecorder.start()` at the beginning of a
recording session (time origin at the start call). -/
def recordingStart : RecorderState := ⟨true, true, 0, 0, []⟩

/-- The recorder state after `n` firings of the rotation timer. -/
def rotateN : Nat → RecorderState
  | 0 => recordingStart
  | n + 1 => chunkIntervalTick (rotateN n)

/-- The expected segment list: `n` consecutive intervals of length
`chunkIntervalMs` starting at `a`. -/
def rotSegs : Nat → Nat → List (Nat × Nat)
  | _, 0 => []
  | a, n + 1 => (a, a + chunkIntervalMs) :: rotSegs (a + chunkIntervalMs) n

/-- Adjacent segments share their boundary: each segment ends exactly where
the next one starts. -/
def contiguousB : List (Nat × Nat) → Bool
  | [] => true
  | [_] => true
  | a :: b :: rest => (a.2 == b.1) && contiguousB (b :: rest)

/-! ## Session lifecycle (SessionController)

Sources: `src/client/src/pages/Home.tsx` and the tRPC router
(`part_001`) with the `audio_sessions` schema (`part_002`).

  * `Home.tsx` line 25: the client state is
    `"idle" | "recording" | "processing" | "completed"`.
  * `Home.tsx` `startRecording` (80-229): optimistically sets
    `recording`; the catch block (223-228) sets the error message and
    `setRecordingState("idle")`.
  * `Home.tsx` `mediaRecorder.onerror` (214-219): logs and surfaces the
    error but performs no state transition.
  * `routers.ts` `audio.startSession` inserts a session with status
    `"recording"`; `audio.stopSession` updates it to `"completed"`.  No
    server code path ever writes status `"failed"`, although the schema
    enum (`part_002` line 83) declares it.
-/

/-- The client recording-state union of `Home.tsx` line 25. -/
inductive RecordingState where
  | idle
  | recording
  | processing
  | completed
deriving Repr, DecidableEq

/-- The `audio_sessions.status` enum of the schema (`part_002` line 83). -/
inductive SessionStatus where
  | recording
  | completed
  | failed
deriving Repr, DecidableEq

/-- The client state `startRecording` ends in: `recording` when every step
succeeded, `idle` when any step threw (the catch block at `Home.tsx`
223-228). -/
def startRecordingClientResult (ok : Bool) : RecordingState :=
  if ok then RecordingState.recording else RecordingState.idle

/-- The `mediaRecorder.onerror` handler (`Home.tsx` 214-219) relative to the
recording state: it sets an error message but leaves the state untouched. -/
def recorderErrorHandlerState (s : RecordingState) : RecordingState := s

/-- The audio-session mutations the client can invoke on the server. -/
inductive AudioCall where
  | startSession
  | stopSession
deriving Repr, DecidableEq

/-- Effect of one tRPC mutation on the stored status of the client session
(`routers.ts`): `startSession` creates it with status `recording`;
`stopSession` sets it to `completed` when it exists and throws (leaving no
row) otherwise. -/
def serverSessionStep : Option SessionStatus → AudioCall → Option SessionStatus
  | _, AudioCall.startSession => some SessionStatus.recording
  | some _, AudioCall.stopSession => some SessionStatus.completed
  | none, AudioCall.stopSession => none

/-- Stored status after a sequence of mutations, starting with no session. -/
def serverSessionRun (calls : List AudioCall) : Option SessionStatus :=
  calls.foldl serverSessionStep none

/-! ## Translation prompt (translation.translate)

Source: `part_001`, `translation.translate` (lines 683-769).  The tRPC input
carries `text` (the detected suffix), `targetLanguage` and
`previousTranslations` (the context window, oldest first); the handler maps
the language code to a name (default `"Japanese"`) and builds one of two
prompts depending on whether `previousTranslations` is non-empty.  The
prompt text below reproduces the template literals verbatim; they are split
at the interpolation points and around the phrases the claims talk about.
-/

/-- `languageNames[input.targetLanguage] || "Japanese"` (lines 698-712). -/
def targetLanguageName (code : String) : String :=
  if code = "ja" then ("Japanese")
  else if code = "es" then ("Spanish")
  else if code = "zh" then ("Chinese")
  else if code = "fr" then ("French")
  else if code = "it" then ("Italian")
  else if code = "ko" then ("Korean")
  else if code = "ar" then ("Arabic")
  else if code = "hi" then ("Hindi")
  else if code = "ru" then ("Russian")
  else if code = "id" then ("Indonesian")
  else if code = "en" then ("English")
  else ("Japanese")

/-- Context-prompt chunk before the language name. -/
def ctxPromptA : String :=
  "You are a professional real-time translator. Translate the following English text to "

/-- Context-prompt chunk between the language name and the joined context. -/
def ctxPromptB : String :=
  ".\n\nIMPORTANT CONTEXT: This is part of an ongoing real-time transcription. The previous translations were:\n\""

/-- The continuation instruction the prompt gives about the supplied
context. -/
def continuationInstruction : String :=
  "flows naturally and smoothly from the previous translation"

/-- Context-prompt chunk between the joined context and the continuation
instruction. -/
def ctxPromptC : String :=
  "\"\n\nPlease translate the new text in a way that "

/-- Context-prompt chunk between the continuation instruction and the text
to translate. -/
def ctxPromptD : String :=
  ". Maintain consistency in terminology, style, and context. Also, try to fill in any missing words or context as minimally as possible to ensure coherence.\n\nText to translate: \""

/-- Context-prompt trailing chunk. -/
def ctxPromptE : String :=
  "\"\n\nProvide only the translation without any explanations or additional text. Ensure the translation connects smoothly with the previous context."

/-- No-context-prompt chunk between the language name and the text. -/
def noCtxPromptB : String :=
  ".\n\nThis is the beginning of a real-time transcription session. Provide a natural, accurate translation. Also, try to fill in any missing words or context as minimally as possible to ensure coherence.\n\nText to translate: \""

/-- No-context-prompt trailing chunk. -/
def noCtxPromptC : String :=
  "\"\n\nProvide only the translation without any explanations or additional text."

/-- The prompt sent to the LLM (lines 714-736): the context variant when
`previousTranslations` is non-empty (context joined with newlines, in array
order, i.e. oldest first), the plain variant otherwise. -/
def buildTranslationPrompt (text lang : String) (prev : List String) : String :=
  if prev.isEmpty then
    ctxPromptA ++ targetLanguageName lang ++ noCtxPromptB ++ text ++ noCtxPromptC
  else
    ctxPromptA ++ targetLanguageName lang ++ ctxPromptB ++
      String.intercalate ("\n") prev ++ ctxPromptC ++ continuationInstruction ++
      ctxPromptD ++ text ++ ctxPromptE

/-! ## Summary generation guard (summary.generate)

Source: `part_001`, `summary.generate` (lines 791-919):

    const session = await getAudioSession(input.sessionId);
    if (!session) throw new Error("Session not found");
    const transcription = await getTranscriptionBySessionId(input.sessionId);
    if (!transcription) throw new Error("No transcription found for this session");
    const transcript = transcription.originalText;
    if (!transcript || transcript.trim().length < 50)
      throw new Error("Transcript too short for summary generation. ...");
    ... invokeLLM ... createSummary(...)

`createSummary` runs only after a successful `invokeLLM` call; the LLM is
modelled as a function that may fail (`none`).  The result pairs the
returned value (or error message) with the list of summary rows stored. -/
def summaryGenerate (session : Option SessionStatus) (transcription : Option String)
    (llm : String → Option String) : Except String String × List (String × String) :=
  match session with
  | none => (Except.error ("Session not found"), [])
  | some _ =>
    match transcription with
    | none => (Except.error ("No transcription found for this session"), [])
    | some transcript =>
      if transcript = "" ∨ (jsTrim transcript).length < 50 then
        (Except.error ("Transcript too short for summary generation. Please record more content."), [])
      else
        match llm transcript with
        | none => (Except.error ("Summary generation failed"), [])
        | some summaryText => (Except.ok summaryText, [(transcript, summaryText)])

/-! ## Concrete schedules and states used in counterexamples and witnesses -/

/-- Schedule: a transcription response, its translation settling, then a
strictly shorter transcription response. -/
def c1Schedule : List TrEv :=
  [TrEv.transcription ("Hello world"), TrEv.translationOk 0 ("X"),
   TrEv.transcription ("Hi")]

/-- Schedule: two transcription responses in rapid succession (the second
arriving before the first suffix translation settles), then the two
translation fetches settling in reverse order. -/
def c2Schedule : List TrEv :=
  [TrEv.transcription ("ab"), TrEv.transcription ("abcd"),
   TrEv.translationOk 1 ("T2"), TrEv.translationOk 0 ("T1")]

/-- A state whose cached transcript is the 11-character text, with no fetch
in flight. -/
def c1WitnessState : AppState :=
  trRun initState [TrEv.transcription ("Hello world"), TrEv.translationOk 0 ("X")]

/-- A state with one translation fetch still in flight. -/
def c2WitnessState : AppState := trRun initState [TrEv.transcription ("ab")]

/-- A state with two translation fetches still in flight. -/
def c6WitnessState : AppState :=
  trRun initState [TrEv.transcription ("ab"), TrEv.transcription ("abcd")]

/-! ## String helper lemmas -/

theorem isInfixB_nil (n : List Char) : isInfixB n [] = isPrefixB n [] := rfl

theorem isInfixB_cons (n : List Char) (a : Char) (tl : List Char) :
    isInfixB n (a :: tl) = (isPrefixB n (a :: tl) || isInfixB n tl) := rfl

theorem isPrefixB_refl (n : List Char) : isPrefixB n n = true := by
  induction n with
  | nil => rfl
  | cons a tl ih => simp [isPrefixB, ih]

theorem isInfixB_of_isPrefixB (n hay : List Char) (h : isPrefixB n hay = true) :
    isInfixB n hay = true := by
  cases hay with
  | nil => exact h
  | cons b bs => simp [isInfixB_cons, h]

theorem isInfixB_append_left (n pre hay : List Char) (h : isInfixB n hay = true) :
    isInfixB n (pre ++ hay) = true := by
  induction pre with
  | nil => simpa using h
  | cons a tl ih => simp [List.cons_append, isInfixB_cons, ih]

theorem isPrefixB_append_right (n hay ext : List Char) (h : isPrefixB n hay = true) :
    isPrefixB n (hay ++ ext) = true := by
  induction n generalizing hay with
  | nil => rfl
  | cons a tl ih =>
    cases hay with
    | nil => simp [isPrefixB] at h
    | cons b bs =>
      simp only [isPrefixB, Bool.and_eq_true] at h
      simp [isPrefixB, h.1, ih bs h.2]

theorem isInfixB_append_right (n hay ext : List Char) (h : isInfixB n hay = true) :
    isInfixB n (hay ++ ext) = true := by
  induction hay with
  | nil =>
    rw [isInfixB_nil] at h
    exact isInfixB_of_isPrefixB _ _ (isPrefixB_append_right _ _ _ h)
  | cons a tl ih =>
    rw [isInfixB_cons, Bool.or_eq_true] at h
    rcases h with h | h
    · exact isInfixB_of_isPrefixB _ _ (by simpa using isPrefixB_append_right _ _ ext h)
    · simp [List.cons_append, isInfixB_cons, ih h]

theorem strContains_self (x : String) : strContains x x = true :=
  isInfixB_of_isPrefixB _ _ (isPrefixB_refl x.data)

theorem string_data_append (a b : String) : (a ++ b).data = a.data ++ b.data := by
  cases a; cases b; rfl

theorem strContains_append_left (a b x : String) (h : strContains b x = true) :
    strContains (a ++ b) x = true := by
  unfold strContains at *
  rw [string_data_append]
  exact isInfixB_append_left _ _ _ h

theorem strContains_append_right (a b x : String) (h : strContains a x = true) :
    strContains (a ++ b) x = true := by
  unfold strContains at *
  rw [string_data_append]
  exact isInfixB_append_right _ _ _ h

theorem strContains_of_right (a x : String) : strContains (a ++ x) x = true :=
  strContains_append_left a x x (strContains_self x)

theorem string_length_append (a b : String) : (a ++ b).length = a.length + b.length := by
  cases a with
  | mk ad =>
    cases b with
    | mk bd =>
      show (ad ++ bd).length = ad.length + bd.length
      exact List.length_append ad bd

theorem string_length_data (s : String) : s.length = s.data.length := by
  cases s
  rfl

theorem jsSubstringFrom_append (last ext : String) :
    jsSubstringFrom (last ++ ext) last.length = ext := by
  unfold jsSubstringFrom
  rw [string_data_append, string_length_data, List.drop_left]

/-! ## Pipeline machine lemmas -/

theorem stepTranscription_segments (s : AppState) (text : String) :
    (stepTranscription s text).lastTranslationSegments = s.lastTranslationSegments := by
  unfold stepTranscription
  dsimp only
  split
  · split <;> rfl
  · rfl

theorem stepTranscription_issue (s : AppState) (text : String)
    (h1 : s.lastTranscriptionText.length < text.length)
    (h2 : computeNewText s.lastTranscriptionText text ≠ "") :
    (stepTranscription s text).issuedTexts =
      s.issuedTexts ++ [computeNewText s.lastTranscriptionText text] ∧
    (stepTranscription s text).obsLog = s.obsLog ++ [TrObs.issue s.nextId] ∧
    (stepTranscription s text).pending = s.pending ++
      [⟨s.nextId, computeNewText s.lastTranscriptionText text, s.lastTranslationSegments, text⟩] := by
  unfold stepTranscription
  simp [h1, h2]

theorem appendTranslationSegments_length_le (l : List String) (t : String)
    (h : l.length ≤ 3) : (appendTranslationSegments l t).length ≤ 3 := by
  unfold appendTranslationSegments
  dsimp only
  split
  · simpa using h
  · rename_i hc
    simp only [List.length_append, List.length_cons, List.length_nil] at hc ⊢
    omega

theorem trStep_segments_le (s : AppState) (e : TrEv)
    (h : s.lastTranslationSegments.length ≤ 3) :
    (trStep s e).lastTranslationSegments.length ≤ 3 := by
  cases e with
  | transcription text =>
    show (stepTranscription s text).lastTranslationSegments.length ≤ 3
    rw [stepTranscription_segments]
    exact h
  | translationOk id result =>
    show (resolveTranslation s id (some result)).lastTranslationSegments.length ≤ 3
    unfold resolveTranslation
    cases hf : s.pending.find? (fun p => p.id == id) with
    | none => exact h
    | some p =>
      dsimp only
      exact appendTranslationSegments_length_le _ _ h
  | translationFail id =>
    show (resolveTranslation s id none).lastTranslationSegments.length ≤ 3
    unfold resolveTranslation
    cases hf : s.pending.find? (fun p => p.id == id) with
    | none => exact h
    | some p => exact h

theorem trRun_segments_le (evs : List TrEv) :
    ∀ s : AppState, s.lastTranslationSegments.length ≤ 3 →
      (trRun s evs).lastTranslationSegments.length ≤ 3 := by
  induction evs with
  | nil => intro s h; exact h
  | cons e rest ih =>
    intro s h
    exact ih (trStep s e) (trStep_segments_le s e h)

/-! ## Claim theorems: transcript cache (C1) -/

/-- Claim C1 is false on the code: `updateTranscription` replaces the
displayed transcript unconditionally, and `handleNewTranscriptionText`
assigns the shorter text to `lastTranscriptionText`; nothing rejects a
response shorter than the cached transcript.  After a session whose cached
transcript is the 11-character text, a 2-character response shrinks both
the display and the cache. -/
theorem c1_counterexample :
    (trRun initState c1Schedule).transcriptionDisplay = "Hi" ∧
    (trRun initState c1Schedule).lastTranscriptionText = "Hi" ∧
    ("Hi" : String).length < ("Hello world" : String).length := by
  refine ⟨by decide, by decide, by decide⟩

/-- Claim C1 (amended): the transcription response unconditionally replaces
the displayed transcript, and when the response is not strictly longer than
the cached text the cache is immediately overwritten with it as well — the
cached transcript can shrink; no length guard exists. -/
theorem c1_unconditional_replace (s : AppState) (text : String) :
    ((trStep s (TrEv.transcription text)).transcriptionDisplay = text) ∧
    (text.length ≤ s.lastTranscriptionText.length →
      (trStep s (TrEv.transcription text)).lastTranscriptionText = text) := by
  constructor
  · show (stepTranscription s text).transcriptionDisplay = text
    unfold stepTranscription
    dsimp only
    split
    · split <;> rfl
    · rfl
  · intro h
    show (stepTranscription s text).lastTranscriptionText = text
    unfold stepTranscription
    dsimp only
    rw [if_neg (by omega)]

theorem c1_unconditional_replace_witness :
    (("Hi" : String).length ≤ (c1WitnessState.lastTranscriptionText).length) ∧
    (trStep c1WitnessState (TrEv.transcription ("Hi"))).lastTranscriptionText = "Hi" := by
  refine ⟨by decide, (c1_unconditional_replace c1WitnessState ("Hi")).2 (by decide)⟩

/-! ## Claim theorems: translation serialization (C2) -/

/-- Claim C2 is false on the code: nothing serializes translation calls.
Under `c2Schedule` the second translation request is issued (observation
`issue 1`) while the first is still unsettled, and since the fetches settle
in reverse order the translations are appended in the order `T2, T1`,
opposite to suffix-detection order (`ab` was detected before `abcd`). -/
theorem c2_counterexample :
    serializedB (trRun initState c2Schedule).obsLog = false ∧
    (trRun initState c2Schedule).obsLog =
      [TrObs.issue 0, TrObs.issue 1, TrObs.settle 1, TrObs.settle 0] ∧
    (trRun initState c2Schedule).issuedTexts = ["ab", "abcd"] ∧
    (trRun initState c2Schedule).appended = ["T2", "T1"] := by
  refine ⟨by decide, by decide, by decide, by decide⟩

/-- Claim C2 (amended): a translation request is issued immediately when a
non-empty suffix is detected, regardless of how many earlier requests are
still in flight — there is no serialization, so a second request can be
issued before the first resolves and results are appended in settlement
order. -/
theorem c2_no_serialization (s : AppState) (text : String)
    (h1 : s.lastTranscriptionText.length < text.length)
    (h2 : computeNewText s.lastTranscriptionText text ≠ "") :
    (trStep s (TrEv.transcription text)).issuedTexts =
      s.issuedTexts ++ [computeNewText s.lastTranscriptionText text] ∧
    (trStep s (TrEv.transcription text)).obsLog =
      s.obsLog ++ [TrObs.issue s.nextId] :=
  ⟨(stepTranscription_issue s text h1 h2).1, (stepTranscription_issue s text h1 h2).2.1⟩

theorem c2_no_serialization_witness :
    (c2WitnessState.pending.length = 1 ∧
     c2WitnessState.lastTranscriptionText.length < ("abcd" : String).length ∧
     computeNewText c2WitnessState.lastTranscriptionText ("abcd") ≠ "") ∧
    ((trStep c2WitnessState (TrEv.transcription ("abcd"))).issuedTexts =
       c2WitnessState.issuedTexts ++
         [computeNewText c2WitnessState.lastTranscriptionText ("abcd")] ∧
     (trStep c2WitnessState (TrEv.transcription ("abcd"))).obsLog =
       c2WitnessState.obsLog ++ [TrObs.issue c2WitnessState.nextId]) :=
  ⟨⟨by decide, by decide, by decide⟩,
   c2_no_serialization c2WitnessState ("abcd") (by decide) (by decide)⟩

/-! ## Claim theorems: context window (C3) -/

/-- Claim C3: in every reachable state the context window holds at most 3
segments, and pushing into a full window of 3 evicts exactly the oldest
entry, preserving the order of the remaining ones. -/
theorem c3_context_window :
    (∀ evs : List TrEv, (trRun initState evs).lastTranslationSegments.length ≤ 3) ∧
    (∀ (l : List String) (t : String), l.length = 3 →
      appendTranslationSegments l t = l.drop 1 ++ [t]) := by
  constructor
  · intro evs
    exact trRun_segments_le evs initState (by decide)
  · intro l t h
    cases l with
    | nil => simp at h
    | cons a l2 =>
      have hl : l2.length = 2 := by simpa using h
      unfold appendTranslationSegments
      dsimp only
      rw [if_pos (by simp [List.length_append]; omega)]
      simp

theorem c3_context_window_witness :
    ((["a", "b", "c"] : List String).length = 3) ∧
    appendTranslationSegments ["a", "b", "c"] ("d") =
      ((["a", "b", "c"] : List String).drop 1) ++ ["d"] :=
  ⟨by decide, c3_context_window.2 ["a", "b", "c"] ("d") (by decide)⟩

/-! ## Claim theorems: diff computation (C4) -/

/-- Claim C4 is false on the code: the computed diff is the *trimmed*
length-based suffix, not the suffix itself.  For cached text of length 11
and new text of length 21, the suffix of length 10 starts with a space, but
`handleNewTranscriptionText` computes its trim. -/
theorem c4_counterexample :
    diffSinceLast ("Hello world") ("Hello world and today") = "and today" ∧
    jsSubstringFrom ("Hello world and today") (("Hello world" : String).length) =
      " and today" ∧
    ("and today" : String) ≠ " and today" := by
  refine ⟨by decide, by decide, by decide⟩

/-- Claim C4 (amended): when the new text is strictly longer, the computed
diff is the whitespace-trimmed suffix of length L2 - L1 (still computed by
length, never by re-alignment); when the new text is not strictly longer,
no diff is computed (empty diff). -/
theorem c4_diff_by_length (last ext cur : String) :
    (ext ≠ "" → diffSinceLast last (last ++ ext) = jsTrim ext) ∧
    (cur.length ≤ last.length → diffSinceLast last cur = "") := by
  constructor
  · intro h
    have hd : ext.data ≠ [] := by
      intro hdata
      apply h
      cases ext with
      | mk d =>
        cases hdata
        rfl
    have hpos : 0 < ext.length := by
      rw [string_length_data]
      cases hx : ext.data with
      | nil => exact absurd hx hd
      | cons c cs => simp [hx]
    unfold diffSinceLast
    rw [if_pos (by rw [string_length_append]; omega)]
    unfold computeNewText
    rw [jsSubstringFrom_append]
  · intro h
    unfold diffSinceLast
    rw [if_neg (by omega)]

theorem c4_diff_by_length_witness :
    ((" x" : String) ≠ "" ∧
      diffSinceLast ("a") (("a") ++ (" x")) = jsTrim (" x")) ∧
    ((("b") : String).length ≤ ("ab" : String).length ∧
      diffSinceLast ("ab") ("b") = "") :=
  ⟨⟨by decide, (c4_diff_by_length ("a") (" x") ("b")).1 (by decide)⟩,
   ⟨by decide, (c4_diff_by_length ("ab") (" x") ("b")).2 (by decide)⟩⟩

/-! ## Claim theorems: translation failure (C6) -/

/-- Claim C6: a failed translation settlement leaves the translation
history, the context window, the displayed transcript, the append log and
the issued-request log unchanged; it queues nothing new (every remaining
in-flight fetch was already in flight); and the next detected suffix still
issues a translation request independently. -/
theorem c6_translation_failure (s : AppState) (id : Nat) :
    ((trStep s (TrEv.translationFail id)).translationHistory = s.translationHistory) ∧
    ((trStep s (TrEv.translationFail id)).lastTranslationSegments =
      s.lastTranslationSegments) ∧
    ((trStep s (TrEv.translationFail id)).transcriptionDisplay =
      s.transcriptionDisplay) ∧
    ((trStep s (TrEv.translationFail id)).appended = s.appended) ∧
    ((trStep s (TrEv.translationFail id)).issuedTexts = s.issuedTexts) ∧
    (∀ q : PendingTranslation,
      q ∈ (trStep s (TrEv.translationFail id)).pending → q ∈ s.pending) ∧
    (∀ text : String,
      (trStep s (TrEv.translationFail id)).lastTranscriptionText.length < text.length →
      computeNewText (trStep s (TrEv.translationFail id)).lastTranscriptionText text ≠ "" →
      (trStep (trStep s (TrEv.translationFail id)) (TrEv.transcription text)).issuedTexts =
        s.issuedTexts ++
          [computeNewText (trStep s (TrEv.translationFail id)).lastTranscriptionText text]) := by
  have hIssued : (trStep s (TrEv.translationFail id)).issuedTexts = s.issuedTexts := by
    show (resolveTranslation s id none).issuedTexts = s.issuedTexts
    unfold resolveTranslation
    cases hf : s.pending.find? (fun p => p.id == id) with
    | none => rfl
    | some p => rfl
  refine ⟨?_, ?_, ?_, ?_, hIssued, ?_, ?_⟩
  · show (resolveTranslation s id none).translationHistory = s.translationHistory
    unfold resolveTranslation
    cases hf : s.pending.find? (fun p => p.id == id) with
    | none => rfl
    | some p => rfl
  · show (resolveTranslation s id none).lastTranslationSegments = s.lastTranslationSegments
    unfold resolveTranslation
    cases hf : s.pending.find? (fun p => p.id == id) with
    | none => rfl
    | some p => rfl
  · show (resolveTranslation s id none).transcriptionDisplay = s.transcriptionDisplay
    unfold resolveTranslation
    cases hf : s.pending.find? (fun p => p.id == id) with
    | none => rfl
    | some p => rfl
  · show (resolveTranslation s id none).appended = s.appended
    unfold resolveTranslation
    cases hf : s.pending.find? (fun p => p.id == id) with
    | none => rfl
    | some p => rfl
  · intro q hq
    revert hq
    show q ∈ (resolveTranslation s id none).pending → q ∈ s.pending
    unfold resolveTranslation
    cases hf : s.pending.find? (fun p => p.id == id) with
    | none => exact fun hq => hq
    | some p =>
      intro hq
      exact (List.mem_filter.mp hq).1
  · intro text h1 h2
    have := stepTranscription_issue (trStep s (TrEv.translationFail id)) text h1 h2
    show (stepTranscription (trStep s (TrEv.translationFail id)) text).issuedTexts =
      s.issuedTexts ++
        [computeNewText (trStep s (TrEv.translationFail id)).lastTranscriptionText text]
    rw [this.1, hIssued]

theorem c6_translation_failure_witness :
    ((⟨1, "abcd", [], "abcd"⟩ : PendingTranslation) ∈
        (trStep c6WitnessState (TrEv.translationFail 0)).pending ∧
      (trStep c6WitnessState (TrEv.translationFail 0)).lastTranscriptionText.length <
        ("abcdef" : String).length ∧
      computeNewText (trStep c6WitnessState (TrEv.translationFail 0)).lastTranscriptionText
        ("abcdef") ≠ "") ∧
    ((⟨1, "abcd", [], "abcd"⟩ : PendingTranslation) ∈ c6WitnessState.pending ∧
      (trStep (trStep c6WitnessState (TrEv.translationFail 0))
          (TrEv.transcription ("abcdef"))).issuedTexts =
        c6WitnessState.issuedTexts ++
          [computeNewText
            (trStep c6WitnessState (TrEv.translationFail 0)).lastTranscriptionText
            ("abcdef")] ) :=
  ⟨⟨by decide, by decide, by decide⟩,
   ⟨(c6_translation_failure c6WitnessState 0).2.2.2.2.2.1 ⟨1, "abcd", [], "abcd"⟩ (by decide),
    (c6_translation_failure c6WitnessState 0).2.2.2.2.2.2 ("abcdef") (by decide) (by decide)⟩⟩

/-! ## Claim theorems: SpeechQueue (C7) -/

theorem ttsStep_done_empty (s : TTSState) (h : s.ttsQueue = []) :
    (ttsStep s TTSEv.utteranceDone).ttsQueue = [] ∧
    (ttsStep s TTSEv.utteranceDone).spoken = s.spoken := by
  cases hcur : s.currentUtterance with
  | none => simp [ttsStep, hcur, h]
  | some u => simp [ttsStep, hcur, processTTSQueueStep, h]

theorem ttsRun_done_empty (n : Nat) :
    ∀ s : TTSState, s.ttsQueue = [] →
      (ttsRun s (List.replicate n TTSEv.utteranceDone)).spoken = s.spoken := by
  induction n with
  | zero => intro s _; rfl
  | succ m ih =>
    intro s h
    show (ttsRun (ttsStep s TTSEv.utteranceDone)
      (List.replicate m TTSEv.utteranceDone)).spoken = s.spoken
    rw [ih (ttsStep s TTSEv.utteranceDone) (ttsStep_done_empty s h).1]
    exact (ttsStep_done_empty s h).2

/-- Claim C7: enqueuing three non-empty tasks while idle produces exactly
three speech-device invocations, in FIFO order, however many utterance
completions follow; `stopAll` issued while the second task is the current
utterance cancels it, empties the queue, resets to idle, and no further
invocation ever happens; `stopAll` always leaves an empty, idle queue with
no current utterance; and the inter-task pause is the 100 ms of the
`setTimeout` in `processTTSQueue`. -/
theorem c7_speech_queue (a b c : SpeechTask)
    (ha : jsTrim a.text ≠ "") (hb : jsTrim b.text ≠ "") (hc : jsTrim c.text ≠ "") :
    (∀ n : Nat,
      (ttsRun ttsInit ([TTSEv.enqueue a, TTSEv.enqueue b, TTSEv.enqueue c] ++
        List.replicate (n + 2) TTSEv.utteranceDone)).spoken = [a, b, c]) ∧
    (∀ n : Nat,
      (ttsRun ttsInit ([TTSEv.enqueue a, TTSEv.enqueue b, TTSEv.enqueue c,
        TTSEv.utteranceDone, TTSEv.stopAll] ++
        List.replicate n TTSEv.utteranceDone)).spoken = [a, b]) ∧
    (∀ s : TTSState, (ttsStep s TTSEv.stopAll).ttsQueue = [] ∧
      (ttsStep s TTSEv.stopAll).isProcessingTTS = false ∧
      (ttsStep s TTSEv.stopAll).currentUtterance = none) ∧
    interTaskPauseMs = 100 := by
  have h5 : List.foldl ttsStep ttsInit
      [TTSEv.enqueue a, TTSEv.enqueue b, TTSEv.enqueue c,
        TTSEv.utteranceDone, TTSEv.utteranceDone] =
      ⟨[], true, some c, [a, b, c]⟩ := by
    simp [ttsInit, ttsStep, processTTSQueueStep, ha, hb, hc]
  have h4stop : List.foldl ttsStep ttsInit
      [TTSEv.enqueue a, TTSEv.enqueue b, TTSEv.enqueue c,
        TTSEv.utteranceDone, TTSEv.stopAll] =
      ⟨[], false, none, [a, b]⟩ := by
    simp [ttsInit, ttsStep, processTTSQueueStep, ha, hb, hc]
  refine ⟨?_, ?_, ?_, rfl⟩
  · intro n
    have hsplit : [TTSEv.enqueue a, TTSEv.enqueue b, TTSEv.enqueue c] ++
        List.replicate (n + 2) TTSEv.utteranceDone =
        [TTSEv.enqueue a, TTSEv.enqueue b, TTSEv.enqueue c,
          TTSEv.utteranceDone, TTSEv.utteranceDone] ++
          List.replicate n TTSEv.utteranceDone := by
      simp [List.replicate_succ]
    unfold ttsRun
    rw [hsplit, List.foldl_append, h5]
    exact ttsRun_done_empty n ⟨[], true, some c, [a, b, c]⟩ rfl
  · intro n
    unfold ttsRun
    rw [List.foldl_append, h4stop]
    exact ttsRun_done_empty n ⟨[], false, none, [a, b]⟩ rfl
  · intro s
    exact ⟨rfl, rfl, rfl⟩
theorem c7_speech_queue_witness :
    (jsTrim (⟨"a1", "ja"⟩ : SpeechTask).text ≠ "" ∧
      jsTrim (⟨"b2", "ja"⟩ : SpeechTask).text ≠ "" ∧
      jsTrim (⟨"c3", "ja"⟩ : SpeechTask).text ≠ "") ∧
    (ttsRun ttsInit ([TTSEv.enqueue ⟨"a1", "ja"⟩, TTSEv.enqueue ⟨"b2", "ja"⟩,
        TTSEv.enqueue ⟨"c3", "ja"⟩] ++
      List.replicate (0 + 2) TTSEv.utteranceDone)).spoken =
      [⟨"a1", "ja"⟩, ⟨"b2", "ja"⟩, ⟨"c3", "ja"⟩] ∧
    (ttsRun ttsInit ([TTSEv.enqueue ⟨"a1", "ja"⟩, TTSEv.enqueue ⟨"b2", "ja"⟩,
        TTSEv.enqueue ⟨"c3", "ja"⟩, TTSEv.utteranceDone, TTSEv.stopAll] ++
      List.replicate 4 TTSEv.utteranceDone)).spoken =
      [⟨"a1", "ja"⟩, ⟨"b2", "ja"⟩] :=
  ⟨⟨by decide, by decide, by decide⟩,
   (c7_speech_queue ⟨"a1", "ja"⟩ ⟨"b2", "ja"⟩ ⟨"c3", "ja"⟩
      (by decide) (by decide) (by decide)).1 0,
   (c7_speech_queue ⟨"a1", "ja"⟩ ⟨"b2", "ja"⟩ ⟨"c3", "ja"⟩
      (by decide) (by decide) (by decide)).2.1 4⟩

/-! ## Claim theorems: chunk rotation (C8) -/

theorem rotSegs_snoc (n : Nat) : ∀ a : Nat,
    rotSegs a n ++ [(a + n * chunkIntervalMs, a + (n + 1) * chunkIntervalMs)] =
      rotSegs a (n + 1) := by
  induction n with
  | zero =>
    intro a
    simp [rotSegs]
  | succ m ih =>
    intro a
    show (a, a + chunkIntervalMs) ::
        (rotSegs (a + chunkIntervalMs) m ++
          [(a + (m + 1) * chunkIntervalMs, a + (m + 1 + 1) * chunkIntervalMs)]) =
      (a, a + chunkIntervalMs) :: rotSegs (a + chunkIntervalMs) (m + 1)
    have h1 : a + (m + 1) * chunkIntervalMs = (a + chunkIntervalMs) + m * chunkIntervalMs := by
      ring
    have h2 : a + (m + 1 + 1) * chunkIntervalMs =
        (a + chunkIntervalMs) + (m + 1) * chunkIntervalMs := by
      ring
    rw [h1, h2, ih (a + chunkIntervalMs)]

theorem rotateN_closed (n : Nat) :
    rotateN n = ⟨true, true, n * chunkIntervalMs, n * chunkIntervalMs, rotSegs 0 n⟩ := by
  induction n with
  | zero => simp [rotateN, recordingStart, rotSegs]
  | succ m ih =>
    show chunkIntervalTick (rotateN m) = _
    rw [ih]
    unfold chunkIntervalTick
    dsimp only
    rw [if_pos (show (true && true) = true from rfl)]
    have hs := rotSegs_snoc m 0
    simp only [Nat.zero_add] at hs
    have harith : m * chunkIntervalMs + chunkIntervalMs = (m + 1) * chunkIntervalMs := by
      ring
    rw [harith, hs]

theorem contiguousB_cons_cons (p q : Nat × Nat) (rest : List (Nat × Nat)) :
    contiguousB (p :: q :: rest) = ((p.2 == q.1) && contiguousB (q :: rest)) := rfl

theorem contiguousB_rotSegs (n : Nat) : ∀ a : Nat, contiguousB (rotSegs a n) = true := by
  induction n with
  | zero => intro a; rfl
  | succ m ih =>
    intro a
    cases m with
    | zero => rfl
    | succ k =>
      show contiguousB ((a, a + chunkIntervalMs) ::
        (a + chunkIntervalMs, a + chunkIntervalMs + chunkIntervalMs) ::
        rotSegs (a + chunkIntervalMs + chunkIntervalMs) k) = true
      rw [contiguousB_cons_cons]
      have htail : contiguousB ((a + chunkIntervalMs,
          a + chunkIntervalMs + chunkIntervalMs) ::
          rotSegs (a + chunkIntervalMs + chunkIntervalMs) k) = true :=
        ih (a + chunkIntervalMs)
      simp [htail]

theorem rotSegs_all_len (n : Nat) : ∀ a : Nat,
    (rotSegs a n).all (fun seg => seg.2 - seg.1 == chunkIntervalMs) = true := by
  induction n with
  | zero => intro a; rfl
  | succ m ih =>
    intro a
    simp only [rotSegs, List.all_cons, Bool.and_eq_true]
    exact ⟨by simp, ih (a + chunkIntervalMs)⟩

/-- Claim C8: each firing of the 10-second rotation timer closes the
in-flight segment and immediately starts the next one inside the same
callback, so after `n` firings the emitted segments are the consecutive
intervals of length `chunkIntervalMs` starting at 0: adjacent segments
share their boundary (no gap, no dropped capture interval) and every
closed segment covers exactly one rotation interval; the interval constant
is the 10000 ms passed to `setInterval`. -/
theorem c8_rotation (n : Nat) :
    (rotateN n).emitted = rotSegs 0 n ∧
    contiguousB (rotateN n).emitted = true ∧
    ((rotateN n).emitted.all (fun seg => seg.2 - seg.1 == chunkIntervalMs)) = true ∧
    chunkIntervalMs = 10000 := by
  have he : (rotateN n).emitted = rotSegs 0 n := by
    rw [rotateN_closed]
  refine ⟨he, ?_, ?_, rfl⟩
  · rw [he]
    exact contiguousB_rotSegs n 0
  · rw [he]
    exact rotSegs_all_len n 0

/-! ## Claim theorems: failure handling and session state (C9) -/

/-- Claim C9 is false on the code: on a device or session-start failure the
client catch block resets the state to `idle` (the client state union has
no failed member at all), the recorder error handler leaves the state
untouched, and the stored session created by `startSession` keeps status
`recording` — it is never updated to `failed` on the failure path. -/
theorem c9_counterexample :
    startRecordingClientResult false = RecordingState.idle ∧
    recorderErrorHandlerState RecordingState.recording = RecordingState.recording ∧
    serverSessionRun [AudioCall.startSession] = some SessionStatus.recording ∧
    some SessionStatus.recording ≠ some SessionStatus.failed :=
  ⟨rfl, rfl, rfl, by decide⟩

/-- Claim C9 (amended): no code path reaches the `failed` status — for
every sequence of session mutations the stored status is never `failed`;
on a session-start failure the client surfaces the error and resets to
`idle`, and a recorder error leaves the client state unchanged. -/
theorem c9_no_failed_transition :
    (∀ calls : List AudioCall, serverSessionRun calls ≠ some SessionStatus.failed) ∧
    startRecordingClientResult false = RecordingState.idle ∧
    (∀ st : RecordingState, recorderErrorHandlerState st = st) := by
  refine ⟨?_, rfl, fun st => rfl⟩
  have key : ∀ (calls : List AudioCall) (st : Option SessionStatus),
      st ≠ some SessionStatus.failed →
      calls.foldl serverSessionStep st ≠ some SessionStatus.failed := by
    intro calls
    induction calls with
    | nil => intro st h; exact h
    | cons cl rest ih =>
      intro st h
      show rest.foldl serverSessionStep (serverSessionStep st cl) ≠ some SessionStatus.failed
      apply ih
      cases cl with
      | startSession => simp [serverSessionStep]
      | stopSession =>
        cases st with
        | none => simp [serverSessionStep]
        | some x => simp [serverSessionStep]
  intro calls
  exact key calls none (by simp)

/-! ## Claim theorems: summary generation guard (C10) -/

/-- Claim C10: summary generation fails with an error whenever the session
has no stored transcription, or the stored transcript trims to fewer than
50 characters; in both cases nothing is stored (the stored-summary list is
empty). -/
theorem c10_summary_guard (st : SessionStatus) (llm : String → Option String)
    (transcript : String) :
    (summaryGenerate (some st) none llm =
      (Except.error ("No transcription found for this session"), [])) ∧
    ((jsTrim transcript).length < 50 →
      summaryGenerate (some st) (some transcript) llm =
        (Except.error
          ("Transcript too short for summary generation. Please record more content."),
          [])) := by
  constructor
  · rfl
  · intro h
    unfold summaryGenerate
    dsimp only
    rw [if_pos (Or.inr h)]

theorem c10_summary_guard_witness :
    ((jsTrim ("short")).length < 50) ∧
    summaryGenerate (some SessionStatus.recording) (some ("short")) (fun _ => none) =
      (Except.error
        ("Transcript too short for summary generation. Please record more content."),
        []) :=
  ⟨by decide, (c10_summary_guard SessionStatus.recording (fun _ => none)
    ("short")).2 (by decide)⟩

/-! ## Claim theorems: translation request contents (C5) -/

set_option maxRecDepth 40000 in
/-- Claim C5 is false on the code: the served prompt does contain the
suffix, the target-language name and the context (see the amended
theorem), and it asks for a natural, smooth continuation — but it contains
no instruction about avoiding duplication of previously translated
content: none of the phrasings that could express such an instruction
occurs anywhere in the prompt built for a representative input. -/
theorem c5_counterexample :
    strContains (buildTranslationPrompt ("Hello world") ("ja") ["X"]) ("duplicat") = false ∧
    strContains (buildTranslationPrompt ("Hello world") ("ja") ["X"]) ("Duplicat") = false ∧
    strContains (buildTranslationPrompt ("Hello world") ("ja") ["X"]) ("avoid") = false ∧
    strContains (buildTranslationPrompt ("Hello world") ("ja") ["X"]) ("Avoid") = false ∧
    strContains (buildTranslationPrompt ("Hello world") ("ja") ["X"]) ("re-explain") = false ∧
    strContains (buildTranslationPrompt ("Hello world") ("ja") ["X"]) ("already translated") = false := by
  refine ⟨by decide, by decide, by decide, by decide, by decide, by decide⟩

/-- Claim C5 (amended): for every non-empty context window, the prompt sent
to the language-model service contains the suffix to translate, the
target-language name, the context-window contents joined in array order
(oldest first), and the explicit instruction that the translation should
flow naturally and smoothly from the previous translation — but no
instruction to avoid duplicating previously translated content. -/
theorem c5_prompt_contents (text lang : String) (prev : List String)
    (h : prev ≠ []) :
    strContains (buildTranslationPrompt text lang prev) text = true ∧
    strContains (buildTranslationPrompt text lang prev) (targetLanguageName lang) = true ∧
    strContains (buildTranslationPrompt text lang prev)
      (String.intercalate ("\n") prev) = true ∧
    strContains (buildTranslationPrompt text lang prev) continuationInstruction = true := by
  have hne : prev.isEmpty = false := by
    cases prev with
    | nil => exact absurd rfl h
    | cons p ps => rfl
  unfold buildTranslationPrompt
  rw [hne]
  simp only [Bool.false_eq_true, if_false]
  refine ⟨?_, ?_, ?_, ?_⟩
  · exact strContains_append_right _ _ _ (strContains_of_right _ _)
  · exact strContains_append_right _ _ _ (strContains_append_right _ _ _
      (strContains_append_right _ _ _ (strContains_append_right _ _ _
        (strContains_append_right _ _ _ (strContains_append_right _ _ _
          (strContains_append_right _ _ _ (strContains_of_right _ _)))))))
  · exact strContains_append_right _ _ _ (strContains_append_right _ _ _
      (strContains_append_right _ _ _ (strContains_append_right _ _ _
        (strContains_append_right _ _ _ (strContains_of_right _ _)))))
  · exact strContains_append_right _ _ _ (strContains_append_right _ _ _
      (strContains_append_right _ _ _ (strContains_of_right _ _)))

theorem c5_prompt_contents_witness :
    ((["X"] : List String) ≠ []) ∧
    (strContains (buildTranslationPrompt ("Hello") ("ja") ["X"]) ("Hello") = true ∧
     strContains (buildTranslationPrompt ("Hello") ("ja") ["X"])
       (targetLanguageName ("ja")) = true ∧
     strContains (buildTranslationPrompt ("Hello") ("ja") ["X"])
       (String.intercalate ("\n") ["X"]) = true ∧
     strContains (buildTranslationPrompt ("Hello") ("ja") ["X"])
       continuationInstruction = true) :=
  ⟨by decide, c5_prompt_contents ("Hello") ("ja") ["X"] (by decide)⟩

end AITranscribe
